import Mathlib

/-!
Shallow embedding of the core of `vscode-ext-logger` (TypeScript):
`src/types.ts`, `src/log-level-utils.ts` and `src/logger.ts`.

Strings are modelled with Lean `String`; the JavaScript `toLowerCase`
and `trim` operations are modelled over the ASCII range (the only range
the level tokens use).  Host-side effects (output channel, console,
configuration subscriptions, file system) are made explicit: emission
returns the list of sink calls performed, and subscription management
threads an explicit environment recording which subscriptions are live.
-/

/-- Embedding of the `LogLevel` enum from `src/types.ts`:
`Off = 0, Error = 1, Warn = 2, Info = 3, Debug = 4, Trace = 5`. -/
inductive LogLevel where
  | off
  | error
  | warn
  | info
  | debug
  | trace
deriving DecidableEq, Repr

/-- Numeric value of each enum member, exactly as declared in `src/types.ts`. -/
def LogLevel.num : LogLevel → Nat
  | .off => 0
  | .error => 1
  | .warn => 2
  | .info => 3
  | .debug => 4
  | .trace => 5

/-- Model of JavaScript `toLowerCase` on one character (ASCII range). -/
def jsLowerChar (c : Char) : Char :=
  if 'A' ≤ c ∧ c ≤ 'Z' then Char.ofNat (c.toNat + 32) else c

/-- Model of the whitespace class removed by JavaScript `trim` (ASCII part). -/
def jsIsSpace (c : Char) : Bool :=
  c = ' ' || c = '\t' || c = '\n' || c = '\r'

/-- Remove leading and trailing whitespace from a character list. -/
def trimChars (l : List Char) : List Char :=
  ((l.dropWhile jsIsSpace).reverse.dropWhile jsIsSpace).reverse

/-- Model of `level.toLowerCase().trim()` as used by
`LogLevelUtils.fromString` in `src/log-level-utils.ts`. -/
def jsLowerTrim (s : String) : String :=
  String.mk (trimChars (s.data.map jsLowerChar))

namespace LogLevelUtils

/-- The `switch` body of `LogLevelUtils.fromString`
(`src/log-level-utils.ts`, lines 17-33), applied to the already
lower-cased and trimmed token; the `default` arm returns `Info`. -/
def fromCanonical (t : String) : LogLevel :=
  if t = "off" then .off
  else if t = "error" then .error
  else if t = "warn" then .warn
  else if t = "warning" then .warn
  else if t = "info" then .info
  else if t = "debug" then .debug
  else if t = "trace" then .trace
  else .info

/-- Embedding of `LogLevelUtils.fromString` (`src/log-level-utils.ts`):
lower-cases and trims the input, then dispatches on the token. -/
def fromString (level : String) : LogLevel :=
  fromCanonical (jsLowerTrim level)

/-- Embedding of `LogLevelUtils.toString` (`src/log-level-utils.ts`,
lines 41-58); the `default` arm is unreachable over the enum and
returns `"info"` in the source. -/
def toString (level : LogLevel) : String :=
  match level with
  | .off => "off"
  | .error => "error"
  | .warn => "warn"
  | .info => "info"
  | .debug => "debug"
  | .trace => "trace"

/-- Embedding of `LogLevelUtils.getValidLevels` (`src/log-level-utils.ts`,
lines 64-66). -/
def getValidLevels : List String :=
  ["off", "error", "warn", "warning", "info", "debug", "trace"]

end LogLevelUtils

/-- Embedding of `Logger.shouldLog` (`src/logger.ts`, lines 80-82):
`this.level !== LogLevel.Off && level <= this.level`, where `<=` compares
the numeric enum values. -/
def shouldLog (currentLevel level : LogLevel) : Bool :=
  (currentLevel ≠ LogLevel.off) && (level.num ≤ currentLevel.num)

/-- Model of the JavaScript values that can be passed as auxiliary
arguments to a log call: scalars (string, integer number, boolean),
`null`, plain objects and arrays. -/
inductive JsValue where
  | vStr (s : String)
  | vNum (n : Int)
  | vBool (b : Bool)
  | vNull
  | vObj (fields : List (String × JsValue))
  | vArr (elems : List JsValue)

/-- Model of `typeof arg === 'object'`: true exactly for plain objects,
arrays and `null` (in JavaScript `typeof null` is `'object'`). -/
def JsValue.typeofIsObject : JsValue → Bool
  | .vObj _ => true
  | .vArr _ => true
  | .vNull => true
  | _ => false

/-- JSON string escaping for one character (the cases the repository's
values exercise: quote and backslash). -/
def jsonEscChar (c : Char) : String :=
  if c = '"' then "\\\""
  else if c = '\\' then "\\\\"
  else String.mk [c]

/-- JSON string escaping, character by character. -/
def jsonEscape (s : String) : String :=
  String.join (s.data.map jsonEscChar)

mutual

/-- Model of `JSON.stringify` on the modelled value shapes. -/
def jsonStringify : JsValue → String
  | .vStr s => "\"" ++ jsonEscape s ++ "\""
  | .vNum n => ToString.toString n
  | .vBool b => cond b "true" "false"
  | .vNull => "null"
  | .vObj fields => "\x7b" ++ jsonFields fields ++ "\x7d"
  | .vArr elems => "[" ++ jsonElems elems ++ "]"

/-- Comma-separated `"key":value` renderings of an object's fields. -/
def jsonFields : List (String × JsValue) → String
  | [] => ""
  | [(k, v)] => "\"" ++ jsonEscape k ++ "\":" ++ jsonStringify v
  | (k, v) :: rest =>
      "\"" ++ jsonEscape k ++ "\":" ++ jsonStringify v ++ "," ++ jsonFields rest

/-- Comma-separated renderings of an array's elements. -/
def jsonElems : List JsValue → String
  | [] => ""
  | [v] => jsonStringify v
  | v :: rest => jsonStringify v ++ "," ++ jsonElems rest

end

/-- Embedding of the per-argument rendering in `Logger.log`
(`src/logger.ts`, line 92):
`typeof arg === 'object' ? JSON.stringify(arg) : String(arg)`.
Objects, arrays and `null` take the `JSON.stringify` branch; the scalar
branch is JavaScript `String(x)`. -/
def renderArg (v : JsValue) : String :=
  match v with
  | .vStr s => s
  | .vNum n => ToString.toString n
  | .vBool b => cond b "true" "false"
  | .vNull => jsonStringify .vNull
  | .vObj f => jsonStringify (.vObj f)
  | .vArr l => jsonStringify (.vArr l)

/-- Embedding of the message assembly in `Logger.log` (`src/logger.ts`,
lines 90-95): `formattedArgs` is the space-join of the rendered
arguments when there is at least one argument, and the final line adds
it to the message only when it is a truthy (non-empty) string. -/
def formatLine (message : String) (args : List JsValue) : String :=
  let formattedArgs :=
    if args.length > 0 then String.intercalate " " (args.map renderArg) else ""
  if formattedArgs ≠ "" then message ++ " " ++ formattedArgs else message

/-- Model of the `ExtensionContext` handle as the logger sees it: only
`logUri` (a path) and the presence of a `subscriptions` array matter.
`logUri` is optional because `Logger.getLogContentsForChannel` checks
`!context.logUri` defensively. -/
structure ExtensionContext where
  logUri : Option String
  hasSubscriptions : Bool

/-- Mutable fields of the `Logger` class (`src/logger.ts`, lines 10-17).
The output channel is an opaque handle (presence only); the config
watcher is identified by the numeric id issued by the subscription
environment. -/
structure LoggerState where
  name : String
  level : LogLevel
  outputChannel : Option Unit
  context : Option ExtensionContext
  configWatcher : Option Nat
  configSection : Option String
  configKey : Option String
  defaultLevel : Option String

/-- One call into an output destination made by `Logger.log`: either a
severity-matched method of the VS Code `LogOutputChannel`, or a
`console.log` line. -/
inductive SinkCall where
  | channel (level : LogLevel) (text : String)
  | consoleLine (text : String)
deriving DecidableEq, Repr

/-- Embedding of the `switch (level)` in `Logger.log` (`src/logger.ts`,
lines 99-115): the five severities call the matching channel method; the
switch has no arm for `Off`, so that value produces no channel call. -/
def channelCalls (level : LogLevel) (text : String) : List SinkCall :=
  match level with
  | .error => [.channel .error text]
  | .warn => [.channel .warn text]
  | .info => [.channel .info text]
  | .debug => [.channel .debug text]
  | .trace => [.channel .trace text]
  | .off => []

namespace Logger

/-- Embedding of the private `Logger.log` (`src/logger.ts`, lines
84-121).  Returns the state after the call (the method assigns to no
field, so the translation passes the state through) together with the
list of sink calls it performed. -/
def log (s : LoggerState) (level : LogLevel) (message : String)
    (args : List JsValue) : LoggerState × List SinkCall :=
  if shouldLog s.level level = false then (s, [])
  else
    let fullMessage := formatLine message args
    match s.outputChannel with
    | some _ => (s, channelCalls level fullMessage)
    | none => (s, [.consoleLine ("[" ++ s.name ++ "] " ++ fullMessage)])

/-- Embedding of `Logger.error` (`src/logger.ts`, lines 123-125). -/
def error (s : LoggerState) (message : String) (args : List JsValue) :
    LoggerState × List SinkCall :=
  log s .error message args

/-- Embedding of `Logger.warn` (`src/logger.ts`, lines 127-129). -/
def warn (s : LoggerState) (message : String) (args : List JsValue) :
    LoggerState × List SinkCall :=
  log s .warn message args

/-- Embedding of `Logger.info` (`src/logger.ts`, lines 131-133). -/
def info (s : LoggerState) (message : String) (args : List JsValue) :
    LoggerState × List SinkCall :=
  log s .info message args

/-- Embedding of `Logger.debug` (`src/logger.ts`, lines 135-137). -/
def debug (s : LoggerState) (message : String) (args : List JsValue) :
    LoggerState × List SinkCall :=
  log s .debug message args

/-- Embedding of `Logger.trace` (`src/logger.ts`, lines 139-141). -/
def trace (s : LoggerState) (message : String) (args : List JsValue) :
    LoggerState × List SinkCall :=
  log s .trace message args

end Logger

/-- Model of the `vscode.FileType` enum used by
`Logger.getLogContentsForChannel`. -/
inductive FileType where
  | unknown
  | file
  | directory
  | symbolicLink
deriving DecidableEq, Repr

/-- Model of the host (VS Code) side that the logger probes with
`eval('require')('vscode')`: whether the module is available, the
workspace configuration surface `getConfiguration(section).get(key, dflt)`
(`none` means the key is not set, so the supplied default is returned),
and the file-system surface used for reading persisted logs. -/
structure Host where
  available : Bool
  config : String → String → Option String
  /-- Model of `vscode.workspace.fs.stat`: the file type, or the message
  of the error the promise rejects with. -/
  stat : String → Except String FileType
  /-- Model of `vscode.workspace.fs.readFile` followed by the UTF-8
  decode: the contents, or the message of the error raised. -/
  readFile : String → Except String String

/-- Environment tracking configuration-change subscriptions issued by
`vscode.workspace.onDidChangeConfiguration`: the next fresh subscription
id, and the ids of subscriptions that have been issued and not yet
disposed. -/
structure WatchEnv where
  nextId : Nat
  live : List Nat
deriving DecidableEq, Repr

/-- Issue a fresh configuration-change subscription. -/
def WatchEnv.subscribe (env : WatchEnv) : Nat × WatchEnv :=
  (env.nextId, { nextId := env.nextId + 1, live := env.live ++ [env.nextId] })

/-- Dispose a subscription: it stops being live. -/
def WatchEnv.disposeSub (env : WatchEnv) (id : Nat) : WatchEnv :=
  { env with live := env.live.erase id }

namespace Logger

/-- Embedding of `Logger.setLevel` (`src/logger.ts`, lines 143-145). -/
def setLevel (s : LoggerState) (level : LogLevel) : LoggerState :=
  { s with level := level }

/-- Embedding of `Logger.setLevelFromString` (`src/logger.ts`,
lines 151-153). -/
def setLevelFromString (s : LoggerState) (level : String) : LoggerState :=
  { s with level := LogLevelUtils.fromString level }

/-- Embedding of `Logger.setLevelFromConfig` (`src/logger.ts`, lines
161-181): in a VS Code environment the level comes from
`getConfiguration(configSection).get(configKey, defaultLevel)`;
otherwise (or on failure) from `defaultLevel`. -/
def setLevelFromConfig (host : Host) (s : LoggerState)
    (configSection configKey defaultLevel : String) : LoggerState :=
  if host.available then
    setLevelFromString s ((host.config configSection configKey).getD defaultLevel)
  else
    setLevelFromString s defaultLevel

/-- Embedding of `Logger.enableConfigMonitoring` (`src/logger.ts`, lines
189-231): stores the section, key and default, performs the immediate
`setLevelFromConfig`, then in a VS Code environment registers a new
change subscription and stores it in `configWatcher`.  The source
overwrites `this.configWatcher` without disposing any previous value,
which the translation reproduces. -/
def enableConfigMonitoring (host : Host) (env : WatchEnv) (s : LoggerState)
    (configSection configKey defaultLevel : String) :
    LoggerState × WatchEnv :=
  let s := { s with
    configSection := some configSection
    configKey := some configKey
    defaultLevel := some defaultLevel }
  let s := setLevelFromConfig host s configSection configKey defaultLevel
  if host.available then
    let (id, env) := env.subscribe
    ({ s with configWatcher := some id }, env)
  else
    (s, env)

/-- Embedding of `Logger.disableConfigMonitoring` (`src/logger.ts`,
lines 236-244): disposes the stored watcher when present, then clears
the watcher, section, key and default fields. -/
def disableConfigMonitoring (env : WatchEnv) (s : LoggerState) :
    LoggerState × WatchEnv :=
  let cleared := { s with
    configWatcher := none
    configSection := none
    configKey := none
    defaultLevel := none }
  match s.configWatcher with
  | some id => (cleared, env.disposeSub id)
  | none => (cleared, env)

/-- Embedding of `Logger.dispose` (`src/logger.ts`, lines 256-263):
runs `disableConfigMonitoring`, then calls `outputChannel.dispose()` when
the channel field is set.  The source does not clear `outputChannel`,
which the translation reproduces.  The returned number counts the
channel-dispose calls performed by this invocation. -/
def dispose (env : WatchEnv) (s : LoggerState) :
    LoggerState × WatchEnv × Nat :=
  let (s1, env1) := disableConfigMonitoring env s
  match s1.outputChannel with
  | some _ => (s1, env1, 1)
  | none => (s1, env1, 0)

end Logger

/-- Embedding of the `LoggerOptions` interface (`src/types.ts`, lines
7-13).  `level` may be a `LogLevel` or a string; absent fields are
`none`. -/
structure LoggerOptions where
  name : Option String := none
  level : Option (LogLevel ⊕ String) := none
  outputChannel : Option Bool := none
  context : Option ExtensionContext := none

/-- Embedding of the `LogContentsResult` interface (`src/types.ts`,
lines 15-20). -/
structure LogContentsResult where
  success : Bool
  contents : Option String := none
  error : Option String := none
  filePath : Option String := none
deriving DecidableEq, Repr

namespace Logger

/-- Embedding of the `Logger` constructor (`src/logger.ts`, lines
19-36).  `options.name || 'Extension'` yields the default for an absent
or empty (falsy) name; a string level goes through
`LogLevelUtils.fromString`, an absent level defaults to `Info`;
the output channel is acquired when `options.outputChannel ?? true`
holds and the VS Code host is available. -/
def construct (host : Host) (options : LoggerOptions) : LoggerState :=
  { name :=
      match options.name with
      | some n => if n = "" then "Extension" else n
      | none => "Extension"
    context := options.context
    level :=
      match options.level with
      | some (.inr str) => LogLevelUtils.fromString str
      | some (.inl l) => l
      | none => LogLevel.info
    outputChannel :=
      if (options.outputChannel.getD true) && host.available then some ()
      else none
    configWatcher := none
    configSection := none
    configKey := none
    defaultLevel := none }

/-- Model of `vscode.Uri.joinPath(context.logUri, channelName + '.log')`
(`src/logger.ts`, line 308). -/
def logFilePath (logUri channelName : String) : String :=
  logUri ++ "/" ++ channelName ++ ".log"

/-- Embedding of the static `Logger.getLogContentsForChannel`
(`src/logger.ts`, lines 285-345): checks host availability, then the
context and its `logUri`, then stats and reads the log file; every
failure is reported through the result object. -/
def getLogContentsForChannel (host : Host) (channelName : String)
    (context : Option ExtensionContext) : LogContentsResult :=
  if host.available = false then
    { success := false, error := some "VS Code environment not available" }
  else
    match context with
    | none =>
        { success := false
          error := some "Extension context with logUri is required but not available" }
    | some ctx =>
        match ctx.logUri with
        | none =>
            { success := false
              error := some "Extension context with logUri is required but not available" }
        | some logUri =>
            let path := logFilePath logUri channelName
            match host.stat path with
            | .error e =>
                { success := false
                  error := some ("Failed to read log file: " ++ e)
                  filePath := some path }
            | .ok ft =>
                if ft ≠ FileType.file then
                  { success := false
                    error := some "Log file path exists but is not a file"
                    filePath := some path }
                else
                  match host.readFile path with
                  | .error e =>
                      { success := false
                        error := some ("Failed to read log file: " ++ e)
                        filePath := some path }
                  | .ok contents =>
                      { success := true
                        contents := some contents
                        filePath := some path }

/-- Embedding of the instance method `Logger.getLogContents`
(`src/logger.ts`, lines 269-277): without a stored context it returns
the constructor-hint error; otherwise it delegates to
`getLogContentsForChannel` with the logger's name.  The method assigns
to no field, so the state passes through unchanged. -/
def getLogContents (host : Host) (s : LoggerState) :
    LoggerState × LogContentsResult :=
  match s.context with
  | none =>
      (s, { success := false
            error := some "Extension context with logUri is required. Pass context to Logger constructor." })
  | some ctx => (s, getLogContentsForChannel host s.name (some ctx))

end Logger

/-- Concrete host with no VS Code environment available. -/
def hostNone : Host :=
  { available := false
    config := fun _ _ => none
    stat := fun _ => .error "unavailable"
    readFile := fun _ => .error "unavailable" }

/-- Concrete host with VS Code available, no configuration values set,
and a file system on which every access fails. -/
def hostAvail : Host :=
  { available := true
    config := fun _ _ => none
    stat := fun _ => .error "ENOENT: no such file or directory"
    readFile := fun _ => .error "ENOENT: no such file or directory" }

/-- Concrete logger state used to instantiate universally quantified
theorems: a logger named `Test` at level `Info` with a bound output
channel and no context. -/
def sampleState : LoggerState :=
  { name := "Test"
    level := .info
    outputChannel := some ()
    context := none
    configWatcher := none
    configSection := none
    configKey := none
    defaultLevel := none }

/-- Concrete logger state with no output channel bound. -/
def sampleConsoleState : LoggerState :=
  { sampleState with outputChannel := none }

/-- Concrete extension context pointing at a log directory. -/
def sampleContext : ExtensionContext :=
  { logUri := some "/logs", hasSubscriptions := true }

/-- C1: a log call at severity `s` passes the filter iff the current
level is not `Off` and the numeric rank of `s` is at most the numeric
rank of the current level; `Off` suppresses every severity, and every
setting other than `Off` lets `Error` through. -/
theorem c1_levelFilter (sev L : LogLevel) (hs : sev ≠ LogLevel.off) :
    (shouldLog L sev = true ↔ (L ≠ LogLevel.off ∧ sev.num ≤ L.num)) ∧
    shouldLog LogLevel.off sev = false ∧
    (L ≠ LogLevel.off → shouldLog L LogLevel.error = true) := by
  cases sev <;> cases L <;> first
    | exact absurd rfl hs
    | decide

/-- Witness for C1 at severity `Debug` and current level `Info`. -/
theorem c1_levelFilter_witness :
    (LogLevel.debug ≠ LogLevel.off) ∧
    ((shouldLog LogLevel.info LogLevel.debug = true ↔
        (LogLevel.info ≠ LogLevel.off ∧
          LogLevel.debug.num ≤ LogLevel.info.num)) ∧
      shouldLog LogLevel.off LogLevel.debug = false ∧
      (LogLevel.info ≠ LogLevel.off →
        shouldLog LogLevel.info LogLevel.error = true)) :=
  ⟨by decide, c1_levelFilter LogLevel.debug LogLevel.info (by decide)⟩

/-- C3: for every one of the six defined severities, parsing the
canonical token produced by formatting yields the severity back. -/
theorem c3_roundTrip (s : LogLevel) :
    LogLevelUtils.fromString (LogLevelUtils.toString s) = s := by
  cases s <;> decide

/-- C4: `fromString` maps each recognized token (with `warning`
aliasing `Warn`), is case- and surrounding-whitespace-insensitive, maps
the empty string to `Info`, and maps every string whose lower-cased and
trimmed form is not a recognized token to `Info`; as a Lean function it
is total over all strings by construction. -/
theorem c4_fromString_total :
    (LogLevelUtils.fromString "off" = LogLevel.off ∧
      LogLevelUtils.fromString "error" = LogLevel.error ∧
      LogLevelUtils.fromString "warn" = LogLevel.warn ∧
      LogLevelUtils.fromString "warning" = LogLevel.warn ∧
      LogLevelUtils.fromString "info" = LogLevel.info ∧
      LogLevelUtils.fromString "debug" = LogLevel.debug ∧
      LogLevelUtils.fromString "trace" = LogLevel.trace) ∧
    (LogLevelUtils.fromString "ERROR" = LogLevelUtils.fromString " error " ∧
      LogLevelUtils.fromString " error " = LogLevelUtils.fromString "Error" ∧
      LogLevelUtils.fromString "Error" = LogLevel.error) ∧
    LogLevelUtils.fromString "" = LogLevel.info ∧
    (∀ s : String, jsLowerTrim s ∉ LogLevelUtils.getValidLevels →
      LogLevelUtils.fromString s = LogLevel.info) := by
  refine ⟨by decide, by decide, by decide, ?_⟩
  intro s h
  simp only [LogLevelUtils.getValidLevels, List.mem_cons,
    List.not_mem_nil, or_false, not_or] at h
  obtain ⟨h1, h2, h3, h4, h5, h6, h7⟩ := h
  simp [LogLevelUtils.fromString, LogLevelUtils.fromCanonical,
    h1, h2, h3, h4, h5, h6, h7]

/-- Witness for C4: the unrecognized token `banana` parses to `Info`. -/
theorem c4_fromString_total_witness :
    jsLowerTrim "banana" ∉ LogLevelUtils.getValidLevels ∧
    LogLevelUtils.fromString "banana" = LogLevel.info :=
  ⟨by decide, c4_fromString_total.2.2.2 "banana" (by decide)⟩

/-- C5 counterexample: with the single auxiliary argument `""` the code
produces `"M"`, not the space-appended line the claim requires. -/
theorem c5_formatting_counterexample :
    formatLine "M" [JsValue.vStr ""] ≠
      "M" ++ " " ++ String.intercalate " " (List.map renderArg [JsValue.vStr ""]) := by
  decide

/-- C5 (amended): each object/array argument is JSON-rendered and each
scalar stringified, the renderings are joined with single spaces, and
the join is appended to the message separated by a space whenever it is
non-empty; when the join is the empty string the line is the message
alone.  In particular `"M"` with args `\x7ba:1\x7d` and `2` produces
`"M \x7b\"a\":1\x7d 2"`. -/
theorem c5_formatting (message : String) (args : List JsValue)
    (h : args ≠ []) :
    (formatLine message args =
      if String.intercalate " " (args.map renderArg) = "" then message
      else message ++ " " ++ String.intercalate " " (args.map renderArg)) ∧
    formatLine "M" [JsValue.vObj [("a", JsValue.vNum 1)], JsValue.vNum 2] =
      "M \x7b\"a\":1\x7d 2" := by
  constructor
  · have hlen : args.length > 0 := List.length_pos.mpr h
    simp only [formatLine, hlen, if_true, ne_eq, ite_not]
  · decide

/-- Witness for C5 at message `x` and the single argument `1`. -/
theorem c5_formatting_witness :
    ([JsValue.vNum 1] ≠ ([] : List JsValue)) ∧
    ((formatLine "x" [JsValue.vNum 1] =
        if String.intercalate " " ([JsValue.vNum 1].map renderArg) = "" then "x"
        else "x" ++ " " ++ String.intercalate " " ([JsValue.vNum 1].map renderArg)) ∧
      formatLine "M" [JsValue.vObj [("a", JsValue.vNum 1)], JsValue.vNum 2] =
        "M \x7b\"a\":1\x7d 2") :=
  ⟨by simp, c5_formatting "x" [JsValue.vNum 1] (by simp)⟩

/-- C6: an unfiltered log call performs exactly one sink call; with a
bound output channel it is the channel method matching the severity
applied to the formatted line, and with no channel it is one console
line prefixed with the bracketed logger name. -/
theorem c6_routing (s : LoggerState) (sev : LogLevel) (message : String)
    (args : List JsValue) (hs : sev ≠ LogLevel.off)
    (hemit : shouldLog s.level sev = true) :
    (Logger.log s sev message args).2.length = 1 ∧
    (s.outputChannel = some () →
      (Logger.log s sev message args).2 =
        [SinkCall.channel sev (formatLine message args)]) ∧
    (s.outputChannel = none →
      (Logger.log s sev message args).2 =
        [SinkCall.consoleLine ("[" ++ s.name ++ "] " ++ formatLine message args)]) := by
  rcases hchan : s.outputChannel with _ | ⟨⟩ <;>
    cases sev <;>
      simp_all [Logger.log, channelCalls]

/-- Witness for C6: an `info` call on the sample channel-bound logger. -/
theorem c6_routing_witness :
    (LogLevel.info ≠ LogLevel.off) ∧
    shouldLog sampleState.level LogLevel.info = true ∧
    ((Logger.log sampleState LogLevel.info "hello" []).2.length = 1 ∧
      (sampleState.outputChannel = some () →
        (Logger.log sampleState LogLevel.info "hello" []).2 =
          [SinkCall.channel LogLevel.info (formatLine "hello" [])]) ∧
      (sampleState.outputChannel = none →
        (Logger.log sampleState LogLevel.info "hello" []).2 =
          [SinkCall.consoleLine
            ("[" ++ sampleState.name ++ "] " ++ formatLine "hello" [])])) :=
  ⟨by decide, by decide,
    c6_routing sampleState LogLevel.info "hello" [] (by decide) (by decide)⟩

/-- C9: every logging call leaves the logger state unchanged — the
private `log` and the five public severity methods all return the state
they were given, whether or not the call emits. -/
theorem c9_loggingFrame (s : LoggerState) (sev : LogLevel)
    (message : String) (args : List JsValue) :
    (Logger.log s sev message args).1 = s ∧
    (Logger.error s message args).1 = s ∧
    (Logger.warn s message args).1 = s ∧
    (Logger.info s message args).1 = s ∧
    (Logger.debug s message args).1 = s ∧
    (Logger.trace s message args).1 = s := by
  have hlog : ∀ lv, (Logger.log s lv message args).1 = s := by
    intro lv
    unfold Logger.log
    split
    · rfl
    · cases hc : s.outputChannel <;> rfl
  exact ⟨hlog sev, hlog .error, hlog .warn, hlog .info, hlog .debug, hlog .trace⟩

/-- C10: constructing a logger with the empty string as name yields the
default display name `Extension` (the constructor treats any falsy name
as absent), and fallback console lines of such a logger carry the
`[Extension] ` marker. -/
theorem c10_emptyName (host : Host) (options : LoggerOptions)
    (sev : LogLevel) (message : String) (args : List JsValue)
    (hname : options.name = some "") :
    (Logger.construct host options).name = "Extension" ∧
    ((Logger.construct host options).outputChannel = none →
      shouldLog (Logger.construct host options).level sev = true →
      (Logger.log (Logger.construct host options) sev message args).2 =
        [SinkCall.consoleLine ("[Extension] " ++ formatLine message args)]) := by
  have hn : (Logger.construct host options).name = "Extension" := by
    simp [Logger.construct, hname]
  refine ⟨hn, ?_⟩
  intro hchan hemit
  have hlit : (("[" : String) ++ "Extension" ++ "] ") = "[Extension] " := by decide
  simp [Logger.log, hemit, hchan, hn, hlit]

/-- Witness for C10: empty-string name, no host, an `error` call. -/
theorem c10_emptyName_witness :
    (({ name := some "" } : LoggerOptions).name = some "") ∧
    ((Logger.construct hostNone { name := some "" }).name = "Extension" ∧
      ((Logger.construct hostNone { name := some "" }).outputChannel = none →
        shouldLog (Logger.construct hostNone { name := some "" }).level
            LogLevel.error = true →
        (Logger.log (Logger.construct hostNone { name := some "" })
            LogLevel.error "y" []).2 =
          [SinkCall.consoleLine ("[Extension] " ++ formatLine "y" [])])) :=
  ⟨rfl, c10_emptyName hostNone { name := some "" } LogLevel.error "y" [] rfl⟩

/-- C2: evaluation of the code on the claim's scenario — enabling
configuration monitoring twice on one logger in a VS Code environment.
The second call overwrites the stored watcher with the new subscription
while the first subscription is still live: after the two calls both
subscriptions `0` and `1` are live, so the previous watch was not
disposed before the new one was installed. -/
theorem c2_enableTwice_leaksSubscription :
    (let env0 : WatchEnv := { nextId := 0, live := [] }
     let s0 := Logger.construct hostAvail {}
     let r1 := Logger.enableConfigMonitoring hostAvail env0 s0
       "sectionA" "logLevel" "info"
     let r2 := Logger.enableConfigMonitoring hostAvail r1.2 r1.1
       "sectionB" "logLevel" "info"
     r1.2.live = [0] ∧
     r1.1.configWatcher = some 0 ∧
     r2.2.live = [0, 1] ∧
     r2.1.configWatcher = some 1) := by
  decide

/-- C7 counterexample: on a logger with a bound output channel, the
first `dispose()` calls the channel's `dispose` once and so does the
second `dispose()` — the source never clears `outputChannel`, so the
sink is released on every call, not exactly once. -/
theorem c7_dispose_counterexample :
    (let env0 : WatchEnv := { nextId := 1, live := [0] }
     let s0 : LoggerState :=
       { name := "Extension", level := .info, outputChannel := some ()
         context := none, configWatcher := some 0
         configSection := some "sectionA", configKey := some "logLevel"
         defaultLevel := some "info" }
     let d1 := Logger.dispose env0 s0
     let d2 := Logger.dispose d1.2.1 d1.1
     d1.2.2 = 1 ∧ d2.2.2 = 1) := by
  decide

/-- C7 (amended): `dispose()` cancels and clears any active watch, and
a second `dispose()` never throws, does not touch the subscription
environment (no re-cancel of the already-cancelled watch) and leaves
the state unchanged; however the sink handle is not cleared, so each
call — the second included — performs one sink release whenever a sink
is bound: the sink is released once per `dispose()` call rather than
exactly once over the logger's lifetime. -/
theorem c7_dispose_secondCall (env : WatchEnv) (s : LoggerState) :
    (let d1 := Logger.dispose env s
     let d2 := Logger.dispose d1.2.1 d1.1
     d1.1.configWatcher = none ∧
     d2.2.1 = d1.2.1 ∧
     d2.1 = d1.1 ∧
     d1.2.2 = (if s.outputChannel.isSome then 1 else 0) ∧
     d2.2.2 = d1.2.2) := by
  cases hcw : s.configWatcher <;> cases hch : s.outputChannel <;>
    simp [Logger.dispose, Logger.disableConfigMonitoring, hcw, hch]

/-- C8: `getLogContents` on a logger that stores no context returns a
failure result with the constructor-hint error and unset contents and
file path, and leaves the state untouched; each sub-failure of the
persisted-log read (host unavailable, missing context or `logUri`,
path not a regular file, stat/read error) produces its own descriptive
error string in the result, and those strings are pairwise distinct. -/
theorem c8_logContentsFailures (host : Host) (s : LoggerState)
    (name logUri msg : String) (ctx : ExtensionContext) (ft : FileType)
    (hctx : s.context = none) :
    Logger.getLogContents host s =
      (s, { success := false
            error := some "Extension context with logUri is required. Pass context to Logger constructor." }) ∧
    (host.available = false →
      Logger.getLogContentsForChannel host name (some ctx) =
        { success := false
          error := some "VS Code environment not available" }) ∧
    (host.available = true →
      Logger.getLogContentsForChannel host name none =
        { success := false
          error := some "Extension context with logUri is required but not available" }) ∧
    (host.available = true → ctx.logUri = some logUri →
      host.stat (Logger.logFilePath logUri name) = Except.ok ft →
      ft ≠ FileType.file →
      Logger.getLogContentsForChannel host name (some ctx) =
        { success := false
          error := some "Log file path exists but is not a file"
          filePath := some (Logger.logFilePath logUri name) }) ∧
    (host.available = true → ctx.logUri = some logUri →
      host.stat (Logger.logFilePath logUri name) = Except.error msg →
      Logger.getLogContentsForChannel host name (some ctx) =
        { success := false
          error := some ("Failed to read log file: " ++ msg)
          filePath := some (Logger.logFilePath logUri name) }) ∧
    (["VS Code environment not available",
      "Extension context with logUri is required but not available",
      "Log file path exists but is not a file",
      "Failed to read log file: ENOENT: no such file or directory"
     ] : List String).Pairwise (· ≠ ·) := by
  refine ⟨?_, ?_, ?_, ?_, ?_, by decide⟩
  · simp [Logger.getLogContents, hctx]
  · intro hav
    simp [Logger.getLogContentsForChannel, hav]
  · intro hav
    simp [Logger.getLogContentsForChannel, hav]
  · intro hav huri hstat hft
    simp [Logger.getLogContentsForChannel, hav, huri, hstat, hft]
  · intro hav huri hstat
    simp [Logger.getLogContentsForChannel, hav, huri, hstat]

/-- Witness for C8 on the sample context-free logger and the available
host whose file system rejects every access. -/
theorem c8_logContentsFailures_witness :
    sampleState.context = none ∧
    (Logger.getLogContents hostAvail sampleState =
      (sampleState,
        { success := false
          error := some "Extension context with logUri is required. Pass context to Logger constructor." }) ∧
    (hostAvail.available = false →
      Logger.getLogContentsForChannel hostAvail "Test" (some sampleContext) =
        { success := false
          error := some "VS Code environment not available" }) ∧
    (hostAvail.available = true →
      Logger.getLogContentsForChannel hostAvail "Test" none =
        { success := false
          error := some "Extension context with logUri is required but not available" }) ∧
    (hostAvail.available = true → sampleContext.logUri = some "/logs" →
      hostAvail.stat (Logger.logFilePath "/logs" "Test") =
        Except.ok FileType.directory →
      FileType.directory ≠ FileType.file →
      Logger.getLogContentsForChannel hostAvail "Test" (some sampleContext) =
        { success := false
          error := some "Log file path exists but is not a file"
          filePath := some (Logger.logFilePath "/logs" "Test") }) ∧
    (hostAvail.available = true → sampleContext.logUri = some "/logs" →
      hostAvail.stat (Logger.logFilePath "/logs" "Test") =
        Except.error "ENOENT: no such file or directory" →
      Logger.getLogContentsForChannel hostAvail "Test" (some sampleContext) =
        { success := false
          error := some ("Failed to read log file: " ++
            "ENOENT: no such file or directory")
          filePath := some (Logger.logFilePath "/logs" "Test") }) ∧
    (["VS Code environment not available",
      "Extension context with logUri is required but not available",
      "Log file path exists but is not a file",
      "Failed to read log file: ENOENT: no such file or directory"
     ] : List String).Pairwise (· ≠ ·)) :=
  ⟨rfl, c8_logContentsFailures hostAvail sampleState "Test" "/logs"
    "ENOENT: no such file or directory" sampleContext FileType.directory rfl⟩
